import Mathlib

/-!
# Verification of the mcld command-line driver (tools/mcld/main.cpp)

A shallow embedding of the mcld linker front-end: option model, output-path
resolution (`DetermineOutputFilename`), configuration building (`ConfigLinker`),
the position-based input merge loop (`PrepareInputOutput`), and the `main`
pipeline, together with theorems about order preservation, fail-fast
sequencing, and output resolution.

External collaborators (the `Linker` engine, `llvm::sys::fs::make_absolute`)
are modelled as abstract oracles supplied through an environment; the llvm
path-string utilities `remove_filename`/`append` are modelled concretely.
-/

namespace Mcld

/-- The engine's error code: `Linker::kSuccess` or some failure code.
Failure codes are distinguished by a numeral so that
`Linker::GetErrorString` can be modelled as a function of the code. -/
inductive ErrorCode where
  | kSuccess : ErrorCode
  | kError : Nat → ErrorCode
deriving DecidableEq, Repr

/-- One link input in the user's command-line order: a positional object-file
path, or a `-l` namespec. -/
inductive InputSpecifier where
  | objectPath : String → InputSpecifier
  | nameSpec : String → InputSpecifier
deriving DecidableEq, Repr

/-- A call made into the external `Linker` engine, in order. -/
inductive EngineCall where
  | config : EngineCall
  | setOutput : String → EngineCall
  | addObject : String → EngineCall
  | addNameSpec : String → EngineCall
  | link : EngineCall
deriving DecidableEq, Repr

/-- A diagnostic written to `llvm::errs()`, modelled structurally: each
constructor corresponds to one error/warning message in the source, carrying
the path/value interpolated into that message. -/
inductive Diagnostic where
  | outOfMemory : Diagnostic
  | configFailed : ErrorCode → Diagnostic
  | useDefaultOutput : Diagnostic
  | absolutePathFailed : String → String → Diagnostic
  | outputOpenFailed : String → ErrorCode → Diagnostic
  | inputOpenFailed : String → ErrorCode → Diagnostic
  | namespecOpenFailed : String → ErrorCode → Diagnostic
  | linkFailed : ErrorCode → Diagnostic
deriving DecidableEq, Repr

/-- The parsed command-line options of the driver (the `llvm::cl` globals).
List options that take part in the positional merge carry, for each
occurrence, its 1-based command-line position (`llvm::cl::list::getPosition`). -/
structure Options where
  outputFilename : String
  sysRoot : String
  searchDirList : List String
  soName : String
  shared : Bool
  dyld : String
  inputObjectFiles : List (String × Nat)
  nameSpecList : List (String × Nat)
  wrapList : List String
deriving DecidableEq, Repr

/-- The configuration object assembled by `ConfigLinker`
(`alone::LinkerConfig`).  Optional fields are `none` when the corresponding
setter was never called. -/
structure LinkerConfig where
  soName : Option String
  sysRoot : Option String
  dyld : Option String
  wraps : List String
  searchDirs : List String
deriving DecidableEq, Repr

/-- The external `Linker` engine, modelled as an oracle giving the error code
each of its operations returns. -/
structure LinkerEngine where
  configResult : LinkerConfig → ErrorCode
  setOutputResult : String → ErrorCode
  addObjectResult : String → ErrorCode
  addNameSpecResult : String → ErrorCode
  linkResult : ErrorCode

/-- The run environment: the engine, the filesystem-dependent
`llvm::sys::fs::make_absolute` (error message or absolute path), and whether
the `new (std::nothrow)` allocation in `ConfigLinker` succeeds. -/
structure Env where
  engine : LinkerEngine
  makeAbsolute : String → Except String String
  allocOk : Bool

/-- `llvm::cl::list::getPosition` at the current cursor, with the loop's
sentinel: position of the head element, or `0` once the list is exhausted. -/
def getPosition : List (String × Nat) → Nat
  | [] => 0
  | (_, p) :: _ => p

/-- The input-merge loop of `PrepareInputOutput` (main.cpp:238-272), projected
to the sequence of inputs it selects: a two-pointer merge keyed on each
element's global command-line position, with `0` as the exhausted sentinel.
The loop breaks when neither branch condition holds. -/
def mergeInputs (files libs : List (String × Nat)) : List (InputSpecifier × Nat) :=
  let filePos := getPosition files
  let libPos := getPosition libs
  if filePos ≠ 0 ∧ (libPos = 0 ∨ filePos < libPos) then
    match files with
    | [] => []
    | (s, p) :: rest => (InputSpecifier.objectPath s, p) :: mergeInputs rest libs
  else if libPos ≠ 0 ∧ (filePos = 0 ∨ libPos < filePos) then
    match libs with
    | [] => []
    | (s, p) :: rest => (InputSpecifier.nameSpec s, p) :: mergeInputs files rest
  else
    []
termination_by files.length + libs.length
decreasing_by
  · simp_arith
  · simp_arith

/-- `llvm::sys::path::remove_filename`: drop the last path component, i.e.
keep everything up to and including the last separator (empty when the path
has no separator). -/
def removeFilename (p : String) : String :=
  String.mk ((p.toList.reverse.dropWhile (fun c => c ≠ '/')).reverse)

/-- `llvm::sys::path::append`: append one component, inserting a separator
unless the path is empty or already ends with one. -/
def appendPath (p c : String) : String :=
  if p = "" then c
  else if p.toList.getLast? = some '/' then p ++ c
  else p ++ "/" ++ c

/-- `DetermineOutputFilename` (main.cpp:132-160).  Returns the resolved output
name together with the diagnostics it printed; `none` models the undefined
out-of-bounds access `OptInputObjectFiles[0]` that the code performs when the
input list is empty (the source has no guard for that case). -/
def DetermineOutputFilename (env : Env) (opts : Options) (pOutputPath : String) :
    Option (String × List Diagnostic) :=
  if pOutputPath ≠ "" then
    some (pOutputPath, [])
  else if opts.inputObjectFiles.length > 1 then
    some ("a.out", [Diagnostic.useDefaultOutput])
  else
    match opts.inputObjectFiles with
    | [] => none
    | (input_path, _) :: _ =>
      match env.makeAbsolute input_path with
      | Except.error msg =>
        some ("", [Diagnostic.absolutePathFailed input_path msg])
      | Except.ok output_path =>
        some (appendPath (removeFilename output_path) "a.out", [])

/-- The outcome of `ConfigLinker`: its boolean result, the configuration
object it assembled (`none` when allocation failed), the engine calls it
made, and its diagnostics. -/
structure ConfigResult where
  ok : Bool
  cfg : Option LinkerConfig
  calls : List EngineCall
  diags : List Diagnostic
deriving DecidableEq, Repr

/-- The configuration-population block of `ConfigLinker` (main.cpp:177-200):
soname defaulting to the output filename, optional sysroot and dynamic
linker, wrap symbols and search directories in command-line order. -/
def buildConfig (opts : Options) (pOutputFilename : String) : LinkerConfig :=
  { soName := if opts.soName ≠ "" then some opts.soName else some pOutputFilename
    sysRoot := if opts.sysRoot ≠ "" then some opts.sysRoot else none
    dyld := if opts.dyld ≠ "" then some opts.dyld else none
    wraps := opts.wrapList
    searchDirs := opts.searchDirList }

/-- `ConfigLinker` (main.cpp:162-211): allocate a configuration, populate it
from the options, then hand it to the engine's `config` operation. -/
def ConfigLinker (env : Env) (opts : Options) (pOutputFilename : String) : ConfigResult :=
  if ¬ env.allocOk then
    { ok := false, cfg := none, calls := [], diags := [Diagnostic.outOfMemory] }
  else
    let config := buildConfig opts pOutputFilename
    let result := env.engine.configResult config
    if result ≠ ErrorCode.kSuccess then
      { ok := false, cfg := some config, calls := [EngineCall.config],
        diags := [Diagnostic.configFailed result] }
    else
      { ok := true, cfg := some config, calls := [EngineCall.config], diags := [] }

/-- The outcome of `PrepareInputOutput` (and of its inner loop): boolean
result, engine calls made in order, diagnostics printed. -/
structure PrepareResult where
  ok : Bool
  calls : List EngineCall
  diags : List Diagnostic
deriving DecidableEq, Repr

/-- The `-----  set inputs  -----` loop of `PrepareInputOutput`
(main.cpp:238-272): the position merge interleaved with the engine's
`addObject`/`addNameSpec` calls, returning `false` at the first failure. -/
def prepareLoop (eng : LinkerEngine) (files libs : List (String × Nat)) : PrepareResult :=
  let filePos := getPosition files
  let libPos := getPosition libs
  if filePos ≠ 0 ∧ (libPos = 0 ∨ filePos < libPos) then
    match files with
    | [] => { ok := true, calls := [], diags := [] }
    | (s, _) :: rest =>
      let result := eng.addObjectResult s
      if result ≠ ErrorCode.kSuccess then
        { ok := false, calls := [EngineCall.addObject s],
          diags := [Diagnostic.inputOpenFailed s result] }
      else
        let r := prepareLoop eng rest libs
        { ok := r.ok, calls := EngineCall.addObject s :: r.calls, diags := r.diags }
  else if libPos ≠ 0 ∧ (filePos = 0 ∨ libPos < filePos) then
    match libs with
    | [] => { ok := true, calls := [], diags := [] }
    | (s, _) :: rest =>
      let result := eng.addNameSpecResult s
      if result ≠ ErrorCode.kSuccess then
        { ok := false, calls := [EngineCall.addNameSpec s],
          diags := [Diagnostic.namespecOpenFailed s result] }
      else
        let r := prepareLoop eng files rest
        { ok := r.ok, calls := EngineCall.addNameSpec s :: r.calls, diags := r.diags }
  else
    { ok := true, calls := [], diags := [] }
termination_by files.length + libs.length
decreasing_by
  · simp_arith
  · simp_arith

/-- `PrepareInputOutput` (main.cpp:213-275): first bind the output via the
engine's `setOutput` (the engine requires output before inputs), returning
`false` immediately on failure; then run the input merge loop. -/
def PrepareInputOutput (env : Env) (opts : Options) (pOutputPath : String) : PrepareResult :=
  let result := env.engine.setOutputResult pOutputPath
  if result ≠ ErrorCode.kSuccess then
    { ok := false, calls := [EngineCall.setOutput pOutputPath],
      diags := [Diagnostic.outputOpenFailed pOutputPath result] }
  else
    let r := prepareLoop env.engine opts.inputObjectFiles opts.nameSpecList
    { ok := r.ok, calls := EngineCall.setOutput pOutputPath :: r.calls, diags := r.diags }

/-- `LinkFiles` (main.cpp:277-286): a single `link()` call into the engine. -/
def LinkFiles (env : Env) : Bool × List EngineCall × List Diagnostic :=
  let result := env.engine.linkResult
  if result ≠ ErrorCode.kSuccess then
    (false, [EngineCall.link], [Diagnostic.linkFailed result])
  else
    (true, [EngineCall.link], [])

/-- The observable outcome of one driver run: exit disposition, the full
ordered sequence of engine calls, and the diagnostics printed. -/
structure RunState where
  exitSuccess : Bool
  calls : List EngineCall
  diags : List Diagnostic
deriving DecidableEq, Repr

/-- `main` (main.cpp:288-312): resolve the output name, configure, bind
output and inputs, link, aborting with `EXIT_FAILURE` at the first stage that
fails.  `none` models the run reaching the undefined empty-list access inside
`DetermineOutputFilename`. -/
def mainRun (env : Env) (opts : Options) : Option RunState :=
  match DetermineOutputFilename env opts opts.outputFilename with
  | none => none
  | some (outputFilename, d0) =>
    if outputFilename = "" then
      some { exitSuccess := false, calls := [], diags := d0 }
    else
      let c := ConfigLinker env opts outputFilename
      if ¬ c.ok then
        some { exitSuccess := false, calls := c.calls, diags := d0 ++ c.diags }
      else
        let p := PrepareInputOutput env opts outputFilename
        if ¬ p.ok then
          some { exitSuccess := false, calls := c.calls ++ p.calls,
                 diags := d0 ++ c.diags ++ p.diags }
        else
          let l := LinkFiles env
          some { exitSuccess := l.1, calls := c.calls ++ p.calls ++ l.2.1,
                 diags := d0 ++ c.diags ++ p.diags ++ l.2.2 }

/-- The two input lists tagged with their specifier kind, in per-list order:
the multiset of inputs the merge is supposed to emit. -/
def tagInputs (files libs : List (String × Nat)) : List (InputSpecifier × Nat) :=
  files.map (fun fp => (InputSpecifier.objectPath fp.1, fp.2)) ++
    libs.map (fun lp => (InputSpecifier.nameSpec lp.1, lp.2))

/-- The engine call a given input specifier gives rise to. -/
def toCall : InputSpecifier → EngineCall
  | InputSpecifier.objectPath s => EngineCall.addObject s
  | InputSpecifier.nameSpec s => EngineCall.addNameSpec s

/-- The engine's result for binding a given input specifier. -/
def addResult (eng : LinkerEngine) : InputSpecifier → ErrorCode
  | InputSpecifier.objectPath s => eng.addObjectResult s
  | InputSpecifier.nameSpec s => eng.addNameSpecResult s

/-- The diagnostic the loop prints when binding a given input fails. -/
def failDiag (spec : InputSpecifier) (result : ErrorCode) : Diagnostic :=
  match spec with
  | InputSpecifier.objectPath s => Diagnostic.inputOpenFailed s result
  | InputSpecifier.nameSpec s => Diagnostic.namespecOpenFailed s result

/-- Run the engine's add operations over an already-merged input sequence,
stopping at the first failure: the sequential view of `prepareLoop`. -/
def processSeq (eng : LinkerEngine) : List (InputSpecifier × Nat) → PrepareResult
  | [] => { ok := true, calls := [], diags := [] }
  | (spec, _) :: rest =>
    let result := addResult eng spec
    if result ≠ ErrorCode.kSuccess then
      { ok := false, calls := [toCall spec], diags := [failDiag spec result] }
    else
      let r := processSeq eng rest
      { ok := r.ok, calls := toCall spec :: r.calls, diags := r.diags }

/-- The well-formedness assumption of the command line: within each list
positions are strictly increasing and strictly positive, and no position
occurs in both lists (global uniqueness). -/
def ValidLists (files libs : List (String × Nat)) : Prop :=
  (files.map Prod.snd).Sorted (· < ·) ∧ (libs.map Prod.snd).Sorted (· < ·) ∧
    (∀ p ∈ files.map Prod.snd, 0 < p) ∧ (∀ p ∈ libs.map Prod.snd, 0 < p) ∧
    ∀ p ∈ files.map Prod.snd, p ∉ libs.map Prod.snd

instance (files libs : List (String × Nat)) : Decidable (ValidLists files libs) := by
  unfold ValidLists
  infer_instance

theorem getPosition_nil : getPosition [] = 0 := rfl

theorem getPosition_eq_zero {l : List (String × Nat)}
    (hpos : ∀ p ∈ l.map Prod.snd, 0 < p) (h : getPosition l = 0) : l = [] := by
  cases l with
  | nil => rfl
  | cons hd tl =>
    exact absurd (hpos hd.2 (by simp)) (by simp [getPosition] at h; simp [h])

theorem getPosition_le {l : List (String × Nat)}
    (hs : (l.map Prod.snd).Sorted (· < ·)) {q : Nat} (hq : q ∈ l.map Prod.snd) :
    getPosition l ≤ q := by
  cases l with
  | nil => simp at hq
  | cons hd tl =>
    simp only [List.map_cons, List.sorted_cons] at hs
    simp only [List.map_cons, List.mem_cons] at hq
    rcases hq with hq | hq
    · simp [getPosition, hq]
    · exact le_of_lt (hs.1 q hq)

theorem mergeInputs_file_step (f : String) (p : Nat) (tail libs : List (String × Nat))
    (h : p ≠ 0 ∧ (getPosition libs = 0 ∨ p < getPosition libs)) :
    mergeInputs ((f, p) :: tail) libs =
      (InputSpecifier.objectPath f, p) :: mergeInputs tail libs := by
  have hp : getPosition ((f, p) :: tail) = p := rfl
  rw [mergeInputs.eq_def, hp, if_pos h]

theorem mergeInputs_lib_step (files : List (String × Nat)) (g : String) (q : Nat)
    (tail : List (String × Nat))
    (h1 : ¬(getPosition files ≠ 0 ∧ (q = 0 ∨ getPosition files < q)))
    (h2 : q ≠ 0 ∧ (getPosition files = 0 ∨ q < getPosition files)) :
    mergeInputs files ((g, q) :: tail) =
      (InputSpecifier.nameSpec g, q) :: mergeInputs files tail := by
  have hq : getPosition ((g, q) :: tail) = q := rfl
  rw [mergeInputs.eq_def, hq, if_neg h1, if_pos h2]

theorem mergeInputs_stop (files libs : List (String × Nat))
    (h1 : ¬(getPosition files ≠ 0 ∧ (getPosition libs = 0 ∨ getPosition files < getPosition libs)))
    (h2 : ¬(getPosition libs ≠ 0 ∧ (getPosition files = 0 ∨ getPosition libs < getPosition files))) :
    mergeInputs files libs = [] := by
  rw [mergeInputs.eq_def, if_neg h1, if_neg h2]

theorem ValidLists.tail_file {f : String} {p : Nat} {tail libs : List (String × Nat)}
    (hv : ValidLists ((f, p) :: tail) libs) : ValidLists tail libs := by
  unfold ValidLists at hv ⊢
  simp only [List.map_cons, List.sorted_cons, List.mem_cons, forall_eq_or_imp] at hv
  tauto

theorem ValidLists.tail_lib {files : List (String × Nat)} {g : String} {q : Nat}
    {tail : List (String × Nat)}
    (hv : ValidLists files ((g, q) :: tail)) : ValidLists files tail := by
  unfold ValidLists at hv ⊢
  simp only [List.map_cons, List.sorted_cons, List.mem_cons, forall_eq_or_imp, not_or] at hv
  obtain ⟨hsf, ⟨hq, hsl⟩, hpf, hpl, hd⟩ := hv
  exact ⟨hsf, hsl, hpf, fun x hx => (hpl.2 x hx), fun x hx => ((hd x hx).2)⟩

theorem mergeInputs_perm (files libs : List (String × Nat)) :
    ValidLists files libs → (mergeInputs files libs).Perm (tagInputs files libs) := by
  induction files, libs using mergeInputs.induct with
  | case1 libs libPos filePos h =>
    exact absurd rfl h.1
  | case2 libs libPos f p tail filePos h ih =>
    intro hv
    have h' : p ≠ 0 ∧ (getPosition libs = 0 ∨ p < getPosition libs) := h
    rw [mergeInputs_file_step f p tail libs h']
    simp only [tagInputs, List.map_cons, List.cons_append]
    exact List.Perm.cons _ (ih hv.tail_file)
  | case3 files filePos libPos h1 h2 =>
    exact absurd rfl h2.1
  | case4 files filePos g q tail libPos h1 h2 ih =>
    intro hv
    have h1' : ¬(getPosition files ≠ 0 ∧ (q = 0 ∨ getPosition files < q)) := h1
    have h2' : q ≠ 0 ∧ (getPosition files = 0 ∨ q < getPosition files) := h2
    rw [mergeInputs_lib_step files g q tail h1' h2']
    simp only [tagInputs, List.map_cons]
    exact (List.Perm.cons _ (ih hv.tail_lib)).trans List.perm_middle.symm
  | case5 files libs filePos libPos h1 h2 =>
    intro hv
    obtain ⟨hsf, hsl, hpf, hpl, hd⟩ := hv
    cases files with
    | nil =>
      cases libs with
      | nil =>
        rw [mergeInputs_stop [] [] (by simp [getPosition_nil]) (by simp [getPosition_nil])]
        simp [tagInputs]
      | cons lhd ltl =>
        obtain ⟨g, q⟩ := lhd
        have hq : 0 < q := hpl q (by simp)
        have h2' : ¬(q ≠ 0 ∧ ((0 : Nat) = 0 ∨ q < 0)) := h2
        omega
    | cons fhd ftl =>
      obtain ⟨f, p⟩ := fhd
      have hp : 0 < p := hpf p (by simp)
      cases libs with
      | nil =>
        have h1' : ¬(p ≠ 0 ∧ ((0 : Nat) = 0 ∨ p < 0)) := h1
        omega
      | cons lhd ltl =>
        obtain ⟨g, q⟩ := lhd
        have hq : 0 < q := hpl q (by simp)
        have h1' : ¬(p ≠ 0 ∧ (q = 0 ∨ p < q)) := h1
        have h2' : ¬(q ≠ 0 ∧ (p = 0 ∨ q < p)) := h2
        have hpq : p = q := by omega
        exact absurd (by simp [hpq] : p ∈ ((g, q) :: ltl).map Prod.snd) (hd p (by simp))

theorem tagInputs_map_snd (files libs : List (String × Nat)) :
    (tagInputs files libs).map Prod.snd = files.map Prod.snd ++ libs.map Prod.snd := by
  simp [tagInputs, Function.comp_def]

theorem mergeInputs_sorted (files libs : List (String × Nat)) :
    ValidLists files libs → ((mergeInputs files libs).map Prod.snd).Sorted (· < ·) := by
  induction files, libs using mergeInputs.induct with
  | case1 libs libPos filePos h =>
    exact absurd rfl h.1
  | case2 libs libPos f p tail filePos h ih =>
    intro hv
    have h' : p ≠ 0 ∧ (getPosition libs = 0 ∨ p < getPosition libs) := h
    rw [mergeInputs_file_step f p tail libs h']
    simp only [List.map_cons, List.sorted_cons]
    refine ⟨?_, ih hv.tail_file⟩
    intro q hq
    have hperm := (mergeInputs_perm tail libs hv.tail_file).map Prod.snd
    rw [hperm.mem_iff, tagInputs_map_snd, List.mem_append] at hq
    obtain ⟨hsf, hsl, hpf, hpl, hd⟩ := hv
    rcases hq with hq | hq
    · have hs : ((f, p) :: tail).map Prod.snd |>.Sorted (· < ·) := hsf
      simp only [List.map_cons, List.sorted_cons] at hs
      exact hs.1 q hq
    · rcases h'.2 with hl0 | hlt
      · rw [getPosition_eq_zero hpl hl0] at hq
        simp at hq
      · exact lt_of_lt_of_le hlt (getPosition_le hsl hq)
  | case3 files filePos libPos h1 h2 =>
    exact absurd rfl h2.1
  | case4 files filePos g q tail libPos h1 h2 ih =>
    intro hv
    have h1' : ¬(getPosition files ≠ 0 ∧ (q = 0 ∨ getPosition files < q)) := h1
    have h2' : q ≠ 0 ∧ (getPosition files = 0 ∨ q < getPosition files) := h2
    rw [mergeInputs_lib_step files g q tail h1' h2']
    simp only [List.map_cons, List.sorted_cons]
    refine ⟨?_, ih hv.tail_lib⟩
    intro x hx
    have hperm := (mergeInputs_perm files tail hv.tail_lib).map Prod.snd
    rw [hperm.mem_iff, tagInputs_map_snd, List.mem_append] at hx
    obtain ⟨hsf, hsl, hpf, hpl, hd⟩ := hv
    rcases hx with hx | hx
    · rcases h2'.2 with hf0 | hlt
      · rw [getPosition_eq_zero hpf hf0] at hx
        simp at hx
      · exact lt_of_lt_of_le hlt (getPosition_le hsf hx)
    · have hs : ((g, q) :: tail).map Prod.snd |>.Sorted (· < ·) := hsl
      simp only [List.map_cons, List.sorted_cons] at hs
      exact hs.1 x hx
  | case5 files libs filePos libPos h1 h2 =>
    intro hv
    rw [mergeInputs_stop files libs h1 h2]
    simp

theorem prepareLoop_file_step (eng : LinkerEngine) (f : String) (p : Nat)
    (tail libs : List (String × Nat))
    (h : p ≠ 0 ∧ (getPosition libs = 0 ∨ p < getPosition libs)) :
    prepareLoop eng ((f, p) :: tail) libs =
      (if eng.addObjectResult f ≠ ErrorCode.kSuccess then
        { ok := false, calls := [EngineCall.addObject f],
          diags := [Diagnostic.inputOpenFailed f (eng.addObjectResult f)] }
      else
        let r := prepareLoop eng tail libs
        { ok := r.ok, calls := EngineCall.addObject f :: r.calls, diags := r.diags }) := by
  have hp : getPosition ((f, p) :: tail) = p := rfl
  rw [prepareLoop.eq_def, hp, if_pos h]

theorem prepareLoop_lib_step (eng : LinkerEngine) (files : List (String × Nat))
    (g : String) (q : Nat) (tail : List (String × Nat))
    (h1 : ¬(getPosition files ≠ 0 ∧ (q = 0 ∨ getPosition files < q)))
    (h2 : q ≠ 0 ∧ (getPosition files = 0 ∨ q < getPosition files)) :
    prepareLoop eng files ((g, q) :: tail) =
      (if eng.addNameSpecResult g ≠ ErrorCode.kSuccess then
        { ok := false, calls := [EngineCall.addNameSpec g],
          diags := [Diagnostic.namespecOpenFailed g (eng.addNameSpecResult g)] }
      else
        let r := prepareLoop eng files tail
        { ok := r.ok, calls := EngineCall.addNameSpec g :: r.calls, diags := r.diags }) := by
  have hq : getPosition ((g, q) :: tail) = q := rfl
  rw [prepareLoop.eq_def, hq, if_neg h1, if_pos h2]

theorem prepareLoop_stop (eng : LinkerEngine) (files libs : List (String × Nat))
    (h1 : ¬(getPosition files ≠ 0 ∧ (getPosition libs = 0 ∨ getPosition files < getPosition libs)))
    (h2 : ¬(getPosition libs ≠ 0 ∧ (getPosition files = 0 ∨ getPosition libs < getPosition files))) :
    prepareLoop eng files libs = { ok := true, calls := [], diags := [] } := by
  rw [prepareLoop.eq_def, if_neg h1, if_neg h2]

/-- The loop of `PrepareInputOutput` is the sequential processing of the
merged input sequence: the merge decision and the engine calls commute. -/
theorem prepareLoop_eq_processSeq (eng : LinkerEngine) (files libs : List (String × Nat)) :
    prepareLoop eng files libs = processSeq eng (mergeInputs files libs) := by
  induction files, libs using mergeInputs.induct with
  | case1 libs libPos filePos h =>
    exact absurd rfl h.1
  | case2 libs libPos f p tail filePos h ih =>
    have h' : p ≠ 0 ∧ (getPosition libs = 0 ∨ p < getPosition libs) := h
    rw [mergeInputs_file_step f p tail libs h', prepareLoop_file_step eng f p tail libs h', ih]
    simp only [processSeq, addResult, toCall, failDiag]
  | case3 files filePos libPos h1 h2 =>
    exact absurd rfl h2.1
  | case4 files filePos g q tail libPos h1 h2 ih =>
    have h1' : ¬(getPosition files ≠ 0 ∧ (q = 0 ∨ getPosition files < q)) := h1
    have h2' : q ≠ 0 ∧ (getPosition files = 0 ∨ q < getPosition files) := h2
    rw [mergeInputs_lib_step files g q tail h1' h2', prepareLoop_lib_step eng files g q tail h1' h2', ih]
    simp only [processSeq, addResult, toCall, failDiag]
  | case5 files libs filePos libPos h1 h2 =>
    rw [mergeInputs_stop files libs h1 h2, prepareLoop_stop eng files libs h1 h2]
    rfl

theorem processSeq_ok (eng : LinkerEngine) (seq : List (InputSpecifier × Nat))
    (h : ∀ x ∈ seq, addResult eng x.1 = ErrorCode.kSuccess) :
    processSeq eng seq =
      { ok := true, calls := seq.map (fun x => toCall x.1), diags := [] } := by
  induction seq with
  | nil => rfl
  | cons x rest ih =>
    simp only [processSeq]
    rw [if_neg (by simp [h x (by simp)])]
    rw [ih (fun y hy => h y (by simp [hy]))]
    simp

theorem processSeq_fail (eng : LinkerEngine) (seq : List (InputSpecifier × Nat))
    (k : Nat) (xk : InputSpecifier × Nat) (hgk : seq.get? k = some xk)
    (hok : ∀ x ∈ seq.take k, addResult eng x.1 = ErrorCode.kSuccess)
    (hfail : addResult eng xk.1 ≠ ErrorCode.kSuccess) :
    processSeq eng seq =
      { ok := false, calls := (seq.take (k + 1)).map (fun x => toCall x.1),
        diags := [failDiag xk.1 (addResult eng xk.1)] } := by
  induction seq generalizing k with
  | nil => simp at hgk
  | cons x rest ih =>
    cases k with
    | zero =>
      have hx : x = xk := by simpa using hgk
      subst hx
      simp only [processSeq]
      rw [if_pos hfail]
      simp
    | succ kp =>
      have hx : addResult eng x.1 = ErrorCode.kSuccess := hok x (by simp)
      simp only [processSeq]
      rw [if_neg (by simp [hx])]
      rw [ih kp (by simpa using hgk) (fun y hy => hok y (by simp [List.take_succ_cons, hy]))]
      simp [List.take_succ_cons]

theorem ConfigLinker_ok_calls (env : Env) (opts : Options) (out : String)
    (h : (ConfigLinker env opts out).ok = true) :
    (ConfigLinker env opts out).calls = [EngineCall.config] ∧
      (ConfigLinker env opts out).diags = [] := by
  by_cases ha : env.allocOk
  · by_cases hc : env.engine.configResult (buildConfig opts out) = ErrorCode.kSuccess
    · simp [ConfigLinker, ha, hc]
    · simp [ConfigLinker, ha, hc] at h
  · simp [ConfigLinker, ha] at h

theorem toCall_ne_link (x : InputSpecifier) : toCall x ≠ EngineCall.link := by
  cases x <;> simp [toCall]

/-- `true` iff no `addObject`/`addNameSpec` call occurs before the first
`setOutput` call in a trace. -/
def noAddBeforeSetOutput : List EngineCall → Bool
  | [] => true
  | EngineCall.setOutput _ :: _ => true
  | EngineCall.addObject _ :: _ => false
  | EngineCall.addNameSpec _ :: _ => false
  | _ :: rest => noAddBeforeSetOutput rest

theorem ConfigLinker_calls_cases (env : Env) (opts : Options) (out : String) :
    (ConfigLinker env opts out).calls = [] ∨
      (ConfigLinker env opts out).calls = [EngineCall.config] := by
  by_cases ha : env.allocOk
  · by_cases hc : env.engine.configResult (buildConfig opts out) = ErrorCode.kSuccess <;>
      simp [ConfigLinker, ha, hc]
  · simp [ConfigLinker, ha]

theorem PrepareInputOutput_calls_head (env : Env) (opts : Options) (out : String) :
    ∃ rest, (PrepareInputOutput env opts out).calls = EngineCall.setOutput out :: rest := by
  unfold PrepareInputOutput
  by_cases h : env.engine.setOutputResult out ≠ ErrorCode.kSuccess
  · exact ⟨[], by rw [if_pos h]⟩
  · exact ⟨_, by rw [if_neg h]⟩

/-- An engine for which every operation succeeds. -/
def engineAllOk : LinkerEngine :=
  { configResult := fun _ => ErrorCode.kSuccess
    setOutputResult := fun _ => ErrorCode.kSuccess
    addObjectResult := fun _ => ErrorCode.kSuccess
    addNameSpecResult := fun _ => ErrorCode.kSuccess
    linkResult := ErrorCode.kSuccess }

/-- An environment where everything succeeds and `make_absolute` is the
identity (paths already absolute). -/
def envAllOk : Env :=
  { engine := engineAllOk, makeAbsolute := fun s => Except.ok s, allocOk := true }

/-- A default option set: no flags given, no inputs. -/
def baseOpts : Options :=
  { outputFilename := "", sysRoot := "", searchDirList := [], soName := "",
    shared := false, dyld := "", inputObjectFiles := [], nameSpecList := [],
    wrapList := [] }

/-- C1: for input lists whose positions are strictly positive, strictly
increasing within each list, and globally unique, the merge loop emits every
element of both lists exactly once with its correct ObjectPath/NameSpec tag
(its output is a permutation of the tagged union of the two lists), and the
emitted positions are strictly increasing — i.e. the output, projected to
positions, is the strictly increasing sorted sequence of all N+M original
positions, the global command-line order. -/
theorem merge_reconstructs_command_line_order (files libs : List (String × Nat))
    (hv : ValidLists files libs) :
    (mergeInputs files libs).Perm (tagInputs files libs) ∧
      ((mergeInputs files libs).map Prod.snd).Sorted (· < ·) ∧
      ∀ eng : LinkerEngine,
        (∀ x ∈ mergeInputs files libs, addResult eng x.1 = ErrorCode.kSuccess) →
        (prepareLoop eng files libs).calls =
          (mergeInputs files libs).map (fun x => toCall x.1) :=
  ⟨mergeInputs_perm files libs hv, mergeInputs_sorted files libs hv,
    fun eng h => by rw [prepareLoop_eq_processSeq, processSeq_ok eng _ h]⟩

/-- Witness for C1 at the spec's example `a.o -lm b.o -lpthread`: the loop
emits `[addObject a.o, addNameSpec m, addObject b.o, addNameSpec pthread]`. -/
theorem merge_reconstructs_command_line_order_witness :
    ValidLists [("a.o", 1), ("b.o", 3)] [("m", 2), ("pthread", 4)] ∧
      ((mergeInputs [("a.o", 1), ("b.o", 3)] [("m", 2), ("pthread", 4)]).Perm
          (tagInputs [("a.o", 1), ("b.o", 3)] [("m", 2), ("pthread", 4)]) ∧
        ((mergeInputs [("a.o", 1), ("b.o", 3)] [("m", 2), ("pthread", 4)]).map
            Prod.snd).Sorted (· < ·)) ∧
      (prepareLoop engineAllOk [("a.o", 1), ("b.o", 3)] [("m", 2), ("pthread", 4)]).calls =
        [EngineCall.addObject "a.o", EngineCall.addNameSpec "m",
          EngineCall.addObject "b.o", EngineCall.addNameSpec "pthread"] := by
  have h := merge_reconstructs_command_line_order
    [("a.o", 1), ("b.o", 3)] [("m", 2), ("pthread", 4)] (by decide)
  refine ⟨by decide, ⟨h.1, h.2.1⟩, ?_⟩
  rw [h.2.2 engineAllOk (by intro x hx; simp [addResult, engineAllOk]; cases x.1 <;> simp)]
  simp [mergeInputs, getPosition, toCall]

/-- C2 (code bug): when the input list is empty and the `-o` value is empty,
`DetermineOutputFilename` reaches the unguarded `OptInputObjectFiles[0]`
access on the empty list — in the total embedding the run is undefined
(`none`) and no error branch is taken. -/
theorem determineOutput_empty_inputs_unguarded (env : Env) (opts : Options)
    (hin : opts.inputObjectFiles = []) :
    DetermineOutputFilename env opts "" = none := by
  simp [DetermineOutputFilename, hin]

/-- Witness for C2: the default option set has no inputs and triggers the
undefined access. -/
theorem determineOutput_empty_inputs_unguarded_witness :
    baseOpts.inputObjectFiles = [] ∧ DetermineOutputFilename envAllOk baseOpts "" = none :=
  ⟨rfl, determineOutput_empty_inputs_unguarded envAllOk baseOpts rfl⟩

/-- C5: a non-empty explicit `-o` value is returned unchanged, for any input
list and any environment (no warning, no filesystem access). -/
theorem explicit_output_wins (env : Env) (opts : Options) (out : String)
    (h : out ≠ "") :
    DetermineOutputFilename env opts out = some (out, []) := by
  simp [DetermineOutputFilename, h]

/-- Witness for C5: `-o out.bin` with two inputs resolves to `out.bin`. -/
theorem explicit_output_wins_witness :
    ("out.bin" : String) ≠ "" ∧
      DetermineOutputFilename envAllOk
        { baseOpts with inputObjectFiles := [("a.o", 1), ("b.o", 2)] } "out.bin" =
        some ("out.bin", []) :=
  ⟨by decide, explicit_output_wins envAllOk _ "out.bin" (by decide)⟩

/-- C6: with empty `-o` and exactly one input, the resolved output is the
directory of the absolutized input with the filename replaced by `a.out`
when absolutization succeeds, and the empty string together with a
diagnostic naming the offending path and the error text when it fails. -/
theorem single_input_inference (env : Env) (opts : Options) (ip : String × Nat)
    (hin : opts.inputObjectFiles = [ip]) :
    (∀ abs, env.makeAbsolute ip.1 = Except.ok abs →
      DetermineOutputFilename env opts "" =
        some (appendPath (removeFilename abs) "a.out", [])) ∧
    (∀ msg, env.makeAbsolute ip.1 = Except.error msg →
      DetermineOutputFilename env opts "" =
        some ("", [Diagnostic.absolutePathFailed ip.1 msg])) := by
  constructor
  · intro abs habs
    simp [DetermineOutputFilename, hin, habs]
  · intro msg hmsg
    simp [DetermineOutputFilename, hin, hmsg]

/-- Witness for C6: single input `/tmp/x/y.o`, no `-o`, resolves to
`/tmp/x/a.out`. -/
theorem single_input_inference_witness :
    ({ baseOpts with inputObjectFiles := [("/tmp/x/y.o", 1)] } : Options).inputObjectFiles =
        [("/tmp/x/y.o", 1)] ∧
      DetermineOutputFilename envAllOk
        { baseOpts with inputObjectFiles := [("/tmp/x/y.o", 1)] } "" =
        some ("/tmp/x/a.out", []) := by
  refine ⟨rfl, ?_⟩
  have h := (single_input_inference envAllOk
    { baseOpts with inputObjectFiles := [("/tmp/x/y.o", 1)] } ("/tmp/x/y.o", 1) rfl).1
    "/tmp/x/y.o" rfl
  simpa [show appendPath (removeFilename "/tmp/x/y.o") "a.out" = "/tmp/x/a.out" by decide] using h

/-- C7: with empty `-o` and more than one input, resolution warns exactly once
that the default name will be used and returns the literal `a.out`, for any
environment. -/
theorem multi_input_default_warning (env : Env) (opts : Options)
    (h : opts.inputObjectFiles.length > 1) :
    DetermineOutputFilename env opts "" =
      some ("a.out", [Diagnostic.useDefaultOutput]) := by
  simp [DetermineOutputFilename, h]

/-- Witness for C7: inputs `[a.o, b.o]`, no `-o`. -/
theorem multi_input_default_warning_witness :
    ({ baseOpts with inputObjectFiles := [("a.o", 1), ("b.o", 2)] } : Options).inputObjectFiles.length > 1 ∧
      DetermineOutputFilename envAllOk
        { baseOpts with inputObjectFiles := [("a.o", 1), ("b.o", 2)] } "" =
        some ("a.out", [Diagnostic.useDefaultOutput]) :=
  ⟨by decide, multi_input_default_warning envAllOk _ (by decide)⟩

/-- C8: on every successful configuration build, the built configuration's
soName is set; it equals the `--soname` value whenever that value is
non-empty, and equals the resolved output path whenever `--soname` is absent
or empty. -/
theorem soName_default (env : Env) (opts : Options) (out : String)
    (h : (ConfigLinker env opts out).ok = true) :
    ∃ cfg, (ConfigLinker env opts out).cfg = some cfg ∧
      (opts.soName ≠ "" → cfg.soName = some opts.soName) ∧
      (opts.soName = "" → cfg.soName = some out) := by
  by_cases ha : env.allocOk
  · by_cases hc : env.engine.configResult (buildConfig opts out) = ErrorCode.kSuccess
    · refine ⟨buildConfig opts out, by simp [ConfigLinker, ha, hc], ?_, ?_⟩
      · intro hso
        simp [buildConfig, hso]
      · intro hso
        simp [buildConfig, hso]
    · simp [ConfigLinker, ha, hc] at h
  · simp [ConfigLinker, ha] at h

/-- Witness for C8: no `--soname` given, output `out.bin`; soName is the
resolved output. -/
theorem soName_default_witness :
    (ConfigLinker envAllOk baseOpts "out.bin").ok = true ∧
      ∃ cfg, (ConfigLinker envAllOk baseOpts "out.bin").cfg = some cfg ∧
        (baseOpts.soName ≠ "" → cfg.soName = some baseOpts.soName) ∧
        (baseOpts.soName = "" → cfg.soName = some "out.bin") :=
  ⟨by decide, soName_default envAllOk baseOpts "out.bin" (by decide)⟩

/-- C9: if at some step the current object-file position equals the current
namespec position and both are nonzero (position uniqueness violated), the
merge loop breaks immediately: every remaining element of both lists is
silently dropped, no add call is made, no diagnostic is printed, and
`PrepareInputOutput` still returns success (given the output bound). -/
theorem merge_tie_silently_stops (env : Env) (opts : Options) (out : String)
    (heq : getPosition opts.inputObjectFiles = getPosition opts.nameSpecList)
    (hne : getPosition opts.inputObjectFiles ≠ 0)
    (hset : env.engine.setOutputResult out = ErrorCode.kSuccess) :
    mergeInputs opts.inputObjectFiles opts.nameSpecList = [] ∧
      PrepareInputOutput env opts out =
        { ok := true, calls := [EngineCall.setOutput out], diags := [] } := by
  have h1 : ¬(getPosition opts.inputObjectFiles ≠ 0 ∧
      (getPosition opts.nameSpecList = 0 ∨
        getPosition opts.inputObjectFiles < getPosition opts.nameSpecList)) := by
    omega
  have h2 : ¬(getPosition opts.nameSpecList ≠ 0 ∧
      (getPosition opts.inputObjectFiles = 0 ∨
        getPosition opts.nameSpecList < getPosition opts.inputObjectFiles)) := by
    omega
  refine ⟨mergeInputs_stop _ _ h1 h2, ?_⟩
  unfold PrepareInputOutput
  rw [if_neg (by simp [hset]), prepareLoop_stop _ _ _ h1 h2]

/-- Witness for C9: both lists claim position 5; everything after the tie is
dropped and the run continues as a success. -/
theorem merge_tie_silently_stops_witness :
    getPosition [("a.o", 5)] = getPosition [("m", 5)] ∧
      getPosition [("a.o", 5)] ≠ 0 ∧
      mergeInputs [("a.o", 5)] [("m", 5)] = [] ∧
      PrepareInputOutput envAllOk
        { baseOpts with inputObjectFiles := [("a.o", 5)], nameSpecList := [("m", 5)] }
        "a.out" =
        { ok := true, calls := [EngineCall.setOutput "a.out"], diags := [] } := by
  refine ⟨rfl, by decide, ?_⟩
  exact merge_tie_silently_stops envAllOk
    { baseOpts with inputObjectFiles := [("a.o", 5)], nameSpecList := [("m", 5)] }
    "a.out" rfl (by decide) rfl

/-- C10: the parsed `-shared` flag is never read after parsing — two option
sets differing only in `shared` produce the same resolved output, the same
configuration result, the same input-binding behaviour, and the same run
outcome. -/
theorem shared_flag_noninterference (env : Env) (opts : Options) (b : Bool) :
    (∀ pOut, DetermineOutputFilename env { opts with shared := b } pOut =
      DetermineOutputFilename env opts pOut) ∧
    (∀ out, ConfigLinker env { opts with shared := b } out = ConfigLinker env opts out) ∧
    (∀ out, PrepareInputOutput env { opts with shared := b } out =
      PrepareInputOutput env opts out) ∧
    mainRun env { opts with shared := b } = mainRun env opts := by
  cases opts
  exact ⟨fun _ => rfl, fun _ => rfl, fun _ => rfl, rfl⟩

/-- C4: the engine's `setOutput` is invoked before any `addObject` or
`addNameSpec` call — `PrepareInputOutput`'s first engine call is always
`setOutput`, if `setOutput` fails no input-binding call is ever made (and the
stage fails), and in every completed run no add call precedes the first
`setOutput` in the trace. -/
theorem setOutput_before_any_add (env : Env) (opts : Options) (out : String) :
    (PrepareInputOutput env opts out).calls.head? = some (EngineCall.setOutput out) ∧
    (env.engine.setOutputResult out ≠ ErrorCode.kSuccess →
      (PrepareInputOutput env opts out).ok = false ∧
      (PrepareInputOutput env opts out).calls = [EngineCall.setOutput out]) ∧
    ∀ st, mainRun env opts = some st → noAddBeforeSetOutput st.calls = true := by
  refine ⟨?_, ?_, ?_⟩
  · obtain ⟨rest, hrest⟩ := PrepareInputOutput_calls_head env opts out
    rw [hrest]
    rfl
  · intro hset
    unfold PrepareInputOutput
    rw [if_pos hset]
    exact ⟨rfl, rfl⟩
  · intro st hst
    unfold mainRun at hst
    cases hD : DetermineOutputFilename env opts opts.outputFilename with
    | none =>
      rw [hD] at hst
      exact absurd hst (by simp)
    | some od =>
      obtain ⟨o, d⟩ := od
      rw [hD] at hst
      dsimp only at hst
      by_cases ho : o = ""
      · rw [if_pos ho] at hst
        obtain rfl : _ = st := Option.some.inj hst
        rfl
      · rw [if_neg ho] at hst
        obtain ⟨rest, hrest⟩ := PrepareInputOutput_calls_head env opts o
        rcases ConfigLinker_calls_cases env opts o with hc | hc
        · by_cases hok : (ConfigLinker env opts o).ok
          · rw [if_neg (by simp [hok])] at hst
            by_cases hpok : (PrepareInputOutput env opts o).ok
            · rw [if_neg (by simp [hpok])] at hst
              obtain rfl : _ = st := Option.some.inj hst
              simp only [hc, hrest, List.nil_append]
              rfl
            · rw [if_pos (by simp [hpok])] at hst
              obtain rfl : _ = st := Option.some.inj hst
              simp only [hc, hrest, List.nil_append]
              rfl
          · rw [if_pos (by simp [hok])] at hst
            obtain rfl : _ = st := Option.some.inj hst
            simp only [hc]
            rfl
        · by_cases hok : (ConfigLinker env opts o).ok
          · rw [if_neg (by simp [hok])] at hst
            by_cases hpok : (PrepareInputOutput env opts o).ok
            · rw [if_neg (by simp [hpok])] at hst
              obtain rfl : _ = st := Option.some.inj hst
              simp only [hc, hrest, List.cons_append]
              rfl
            · rw [if_pos (by simp [hpok])] at hst
              obtain rfl : _ = st := Option.some.inj hst
              simp only [hc, hrest, List.cons_append]
              rfl
          · rw [if_pos (by simp [hok])] at hst
            obtain rfl : _ = st := Option.some.inj hst
            simp only [hc]
            rfl

/-- Witness for C4: with an engine whose `setOutput` always fails, the input
stage fails with only the `setOutput` call in the trace. -/
theorem setOutput_before_any_add_witness :
    ({ engineAllOk with setOutputResult := fun _ => ErrorCode.kError 1 } : LinkerEngine).setOutputResult
        "out.bin" ≠ ErrorCode.kSuccess ∧
      (PrepareInputOutput
          { envAllOk with
            engine := { engineAllOk with setOutputResult := fun _ => ErrorCode.kError 1 } }
          baseOpts "out.bin").ok = false ∧
      (PrepareInputOutput
          { envAllOk with
            engine := { engineAllOk with setOutputResult := fun _ => ErrorCode.kError 1 } }
          baseOpts "out.bin").calls = [EngineCall.setOutput "out.bin"] :=
  ⟨by decide,
    (setOutput_before_any_add
      { envAllOk with
        engine := { engineAllOk with setOutputResult := fun _ => ErrorCode.kError 1 } }
      baseOpts "out.bin").2.1 (by decide)⟩

/-- C3: if binding the k-th merged input fails while all earlier ones
succeed, the run stops there: the trace contains add calls for exactly the
first k+1 merged inputs (none after the failing one), the run exits as a
failure, the engine's `link` is never invoked, and the last diagnostic names
the failing input's own path or namespec identifier. -/
theorem mainRun_input_fail_fast (env : Env) (opts : Options) (out : String)
    (d0 : List Diagnostic) (k : Nat) (xk : InputSpecifier × Nat)
    (hout : DetermineOutputFilename env opts opts.outputFilename = some (out, d0))
    (hne : out ≠ "")
    (hcfg : (ConfigLinker env opts out).ok = true)
    (hset : env.engine.setOutputResult out = ErrorCode.kSuccess)
    (hgk : (mergeInputs opts.inputObjectFiles opts.nameSpecList).get? k = some xk)
    (hok : ∀ x ∈ (mergeInputs opts.inputObjectFiles opts.nameSpecList).take k,
      addResult env.engine x.1 = ErrorCode.kSuccess)
    (hfail : addResult env.engine xk.1 ≠ ErrorCode.kSuccess) :
    ∃ st, mainRun env opts = some st ∧ st.exitSuccess = false ∧
      st.calls = EngineCall.config :: EngineCall.setOutput out ::
        ((mergeInputs opts.inputObjectFiles opts.nameSpecList).take (k + 1)).map
          (fun x => toCall x.1) ∧
      EngineCall.link ∉ st.calls ∧
      st.diags.getLast? = some (failDiag xk.1 (addResult env.engine xk.1)) := by
  have hprep : PrepareInputOutput env opts out =
      { ok := false,
        calls := EngineCall.setOutput out ::
          ((mergeInputs opts.inputObjectFiles opts.nameSpecList).take (k + 1)).map
            (fun x => toCall x.1),
        diags := [failDiag xk.1 (addResult env.engine xk.1)] } := by
    unfold PrepareInputOutput
    rw [if_neg (by simp [hset]), prepareLoop_eq_processSeq,
      processSeq_fail env.engine _ k xk hgk hok hfail]
  obtain ⟨hcalls, hdiags⟩ := ConfigLinker_ok_calls env opts out hcfg
  have hmain : mainRun env opts = some
      { exitSuccess := false,
        calls := EngineCall.config :: EngineCall.setOutput out ::
          ((mergeInputs opts.inputObjectFiles opts.nameSpecList).take (k + 1)).map
            (fun x => toCall x.1),
        diags := d0 ++ [failDiag xk.1 (addResult env.engine xk.1)] } := by
    unfold mainRun
    rw [hout]
    dsimp only
    rw [if_neg hne, if_neg (by simp [hcfg]), if_pos (by simp [hprep]), hprep, hcalls, hdiags]
    simp
  refine ⟨_, hmain, rfl, rfl, ?_, ?_⟩
  · intro hmem
    simp only [List.mem_cons, List.mem_map] at hmem
    rcases hmem with h | h | ⟨x, _, hx⟩
    · exact EngineCall.noConfusion h
    · exact EngineCall.noConfusion h
    · exact toCall_ne_link x.1 hx
  · simp

/-- Witness for C3: five inputs `a.o -lm b.o -lpthread c.o`, the third merged
input (`b.o`) fails to bind; the run stops after it, never linking. -/
theorem mainRun_input_fail_fast_witness :
    ∃ st, mainRun
        { envAllOk with
          engine := { engineAllOk with
            addObjectResult := fun s => if s = "b.o" then ErrorCode.kError 1
              else ErrorCode.kSuccess } }
        { baseOpts with
          outputFilename := "out.bin"
          inputObjectFiles := [("a.o", 1), ("b.o", 3), ("c.o", 5)]
          nameSpecList := [("m", 2), ("pthread", 4)] } = some st ∧
      st.exitSuccess = false ∧
      st.calls = EngineCall.config :: EngineCall.setOutput "out.bin" ::
        ((mergeInputs [("a.o", 1), ("b.o", 3), ("c.o", 5)] [("m", 2), ("pthread", 4)]).take 3).map
          (fun x => toCall x.1) ∧
      EngineCall.link ∉ st.calls ∧
      st.diags.getLast? = some (failDiag (InputSpecifier.objectPath "b.o") (ErrorCode.kError 1)) := by
  have h := mainRun_input_fail_fast
    { envAllOk with
      engine := { engineAllOk with
        addObjectResult := fun s => if s = "b.o" then ErrorCode.kError 1
          else ErrorCode.kSuccess } }
    { baseOpts with
      outputFilename := "out.bin"
      inputObjectFiles := [("a.o", 1), ("b.o", 3), ("c.o", 5)]
      nameSpecList := [("m", 2), ("pthread", 4)] }
    "out.bin" [] 2 (InputSpecifier.objectPath "b.o", 3)
    rfl (by decide) (by decide) rfl
    (by simp [mergeInputs, getPosition])
    (by simp [mergeInputs, getPosition]; decide)
    (by decide)
  simpa [addResult] using h

end Mcld
